import Mathlib

/-!
Verification of `scripts/generate_embeddings.py`: a linear pipeline that
loads a tab-separated gene-interaction edge list, builds an undirected
graph, samples biased random walks (with p = q = 1.0), trains a skip-gram
model on the walks, and writes one embedding row per graph node.

The pipeline is shallowly embedded: pure data flow is translated into Lean
functions, the external libraries (pandas, StellarGraph, gensim, argparse)
are modelled by explicit definitions of the behavior the script relies on,
and possible failures of external calls are threaded as explicit
`Except`/`Option` parameters.  Floating-point embedding values are
abstracted as integers supplied by an oracle; no claim concerns the
numeric values themselves, only shapes, counts and control flow.
-/

namespace Node2Vec

/-- A parsed row of the tab-separated input file, as produced by
`pd.read_csv(args.input, sep='\t', header=None, names=['source', 'target'])`:
two cells, either of which may be missing (NaN). Cell values are modelled
as the text they are coerced to by the later `astype(str)` calls. -/
abbrev RawRow := Option String × Option String

/-- Modelled from the spec: pandas `drop_duplicates` (library code, not in
`src/`) keeps the first occurrence of each element and removes the later
exact duplicates. Auxiliary recursion with the accumulator `seen` holding
the elements already emitted. -/
def dropDupAux {α : Type} [DecidableEq α] (seen : List α) : List α → List α
  | [] => []
  | a :: l => if a ∈ seen then dropDupAux seen l else a :: dropDupAux (a :: seen) l

/-- Modelled from the spec: pandas `DataFrame.drop_duplicates`, keeping
first occurrences. -/
def dropDuplicates {α : Type} [DecidableEq α] (l : List α) : List α :=
  dropDupAux [] l

/-- Modelled from the spec: pandas `dropna` keeps a row only when both the
source and the target cell are present; such a row becomes an ordered
(source, target) pair of text identifiers. -/
def validRow : RawRow → Option (String × String)
  | (some s, some t) => some (s, t)
  | _ => none

/-- The edge loader, `generate_embeddings.py` lines 33-36:
`edges = pd.read_csv(...)` followed by `edges.dropna().drop_duplicates()`
and `astype(str)` on both columns (the coercion to text is the identity in
this model, where cells are already text). -/
def loadEdges (rows : List RawRow) : List (String × String) :=
  dropDuplicates (rows.filterMap validRow)

/-- The in-memory graph built by `StellarGraph(edges=edges)` (line 46):
its node set is the collection of distinct identifiers appearing as source
or target of some edge, and it keeps the edge rows as given.  The graph is
undirected; direction only survives in the stored edge pairs. -/
structure StellarGraphM where
  nodes : List String
  edges : List (String × String)
deriving DecidableEq

/-- Modelled from the spec: `StellarGraph(edges=edges)` (library code, not
in `src/`) derives the node set from the endpoints of the edges. -/
def buildGraph (es : List (String × String)) : StellarGraphM :=
  ⟨dropDuplicates (es.flatMap (fun e => [e.1, e.2])), es⟩

/-- Undirected adjacency: the neighbors of `v` are the opposite endpoints
of every stored edge incident to `v` (with multiplicity). -/
def neighbors (g : StellarGraphM) (v : String) : List String :=
  g.edges.flatMap (fun e =>
    (if e.1 = v then [e.2] else []) ++ (if e.2 = v then [e.1] else []))

/-! ### Basic lemmas about the loader -/

theorem mem_dropDupAux {α : Type} [DecidableEq α] :
    ∀ (l seen : List α) (x : α), x ∈ dropDupAux seen l ↔ x ∈ l ∧ x ∉ seen := by
  intro l
  induction l with
  | nil => intro seen x; simp [dropDupAux]
  | cons a t ih =>
    intro seen x
    by_cases ha : a ∈ seen
    · simp only [dropDupAux, if_pos ha, ih]
      constructor
      · rintro ⟨hx, hs⟩; exact ⟨List.mem_cons_of_mem _ hx, hs⟩
      · rintro ⟨hx, hs⟩
        rcases List.mem_cons.mp hx with rfl | hx
        · exact absurd ha hs
        · exact ⟨hx, hs⟩
    · simp only [dropDupAux, if_neg ha, List.mem_cons, ih]
      constructor
      · rintro (rfl | ⟨hx, hs⟩)
        · exact ⟨Or.inl rfl, ha⟩
        · refine ⟨Or.inr hx, fun hmem => hs (Or.inr hmem)⟩
      · rintro ⟨rfl | hx, hs⟩
        · exact Or.inl rfl
        · by_cases hxa : x = a
          · exact Or.inl hxa
          · exact Or.inr ⟨hx, fun hmem => hmem.elim hxa hs⟩

theorem mem_dropDuplicates {α : Type} [DecidableEq α] (l : List α) (x : α) :
    x ∈ dropDuplicates l ↔ x ∈ l := by
  simp [dropDuplicates, mem_dropDupAux]

theorem nodup_dropDupAux {α : Type} [DecidableEq α] :
    ∀ (l seen : List α), (dropDupAux seen l).Nodup := by
  intro l
  induction l with
  | nil => intro seen; simp [dropDupAux]
  | cons a t ih =>
    intro seen
    by_cases ha : a ∈ seen
    · simpa [dropDupAux, if_pos ha] using ih seen
    · simp only [dropDupAux, if_neg ha, List.nodup_cons]
      refine ⟨fun hmem => ?_, ih (a :: seen)⟩
      exact ((mem_dropDupAux t (a :: seen) a).mp hmem).2 (List.mem_cons_self a seen)

theorem nodup_dropDuplicates {α : Type} [DecidableEq α] (l : List α) :
    (dropDuplicates l).Nodup :=
  nodup_dropDupAux l []

theorem toFinset_dropDuplicates {α : Type} [DecidableEq α] (l : List α) :
    (dropDuplicates l).toFinset = l.toFinset := by
  ext x
  simp [mem_dropDuplicates]

theorem length_dropDuplicates {α : Type} [DecidableEq α] (l : List α) :
    (dropDuplicates l).length = l.toFinset.card := by
  rw [← toFinset_dropDuplicates]
  exact (List.toFinset_card_of_nodup (nodup_dropDuplicates l)).symm

theorem validRow_eq_some {r : RawRow} {e : String × String}
    (h : validRow r = some e) : r = (some e.1, some e.2) := by
  obtain ⟨s, t⟩ := r
  cases s with
  | none => simp [validRow] at h
  | some a =>
    cases t with
    | none => simp [validRow] at h
    | some b =>
      simp only [validRow, Option.some.injEq] at h
      rw [← h]

/-! ### The walk sampler -/

/-- Modelled from the spec: the extension steps of one biased random walk
of StellarGraph's `BiasedRandomWalk.run` (library code, not in `src/`).
Starting from `cur` with `k` extension steps remaining, the walk stops
early when the current node has no neighbors; otherwise the next node is
drawn from the neighbor list, the random draw being abstracted by the
oracle `choice`, which turns the remaining step budget into an index. -/
def walkFrom (g : StellarGraphM) (choice : Nat → Nat) : String → Nat → List String
  | _, 0 => []
  | cur, k + 1 =>
    let ns := neighbors g cur
    if ns = [] then []
    else
      let nxt := ns.getD (choice k % ns.length) cur
      nxt :: walkFrom g choice nxt k

/-- One walk rooted at `v`: the root followed by at most `length - 1`
extension steps. -/
def nodeWalk (g : StellarGraphM) (choice : Nat → Nat) (v : String)
    (length : Nat) : List String :=
  v :: walkFrom g choice v (length - 1)

/-- Modelled from the spec: `BiasedRandomWalk.run(nodes=list(graph.nodes()),
length=..., n=..., p=1.0, q=1.0)` (library code, not in `src/`), called at
lines 55-62 of `generate_embeddings.py`.  The library validates that
`length` and `n` are positive and then produces `n` walks rooted at every
node.  The per-walk randomness is abstracted by `oracle`, indexed by root
node and walk number. -/
def biasedRandomWalkRun (g : StellarGraphM) (oracle : String → Nat → Nat → Nat)
    (length n : Nat) : Except String (List (List String)) :=
  if length < 1 then .error "length: expected positive integer"
  else if n < 1 then .error "n: expected positive integer"
  else .ok (g.nodes.flatMap (fun v =>
    (List.range n).map (fun i => nodeWalk g (oracle v i) v length)))

/-! ### The transition distributions of one walk step -/

/-- Uniform single-step transition distribution over the neighbor list of
the current node: the probability, as an exact rational, that each
position of the neighbor list is chosen by a simple unbiased random
walk. -/
def uniformProbs (g : StellarGraphM) (cur : String) : List ℚ :=
  (neighbors g cur).map (fun _ => 1 / ((neighbors g cur).length : ℚ))

/-- Modelled from the spec: the biased (Node2Vec) single-step transition
distribution of StellarGraph's `BiasedRandomWalk` (library code, not in
`src/`).  The first step (no previous node) is uniform over the neighbor
list; every later step weights a candidate neighbor by `1/p` if it is the
previous node, `1` if it is adjacent to the previous node, and `1/q`
otherwise, then normalizes the weights. -/
def biasedProbs (g : StellarGraphM) (p q : ℚ) (prev : Option String)
    (cur : String) : List ℚ :=
  let ns := neighbors g cur
  match prev with
  | none => ns.map (fun _ => 1 / (ns.length : ℚ))
  | some pv =>
    let ws := ns.map (fun nn =>
      if nn = pv then 1 / p else if nn ∈ neighbors g pv then 1 else 1 / q)
    ws.map (fun w => w / ws.sum)

/-! ### The trainer, the extraction loop and the writer -/

/-- Modelled from the spec: the vector lookup table `model.wv` of the
trained `Word2Vec(sentences=str_walks, vector_size=dims, min_count=1,
sg=1, ...)` model (library code, not in `src/`).  With `min_count=1` the
vocabulary is exactly the set of tokens occurring in the sentences; each
vocabulary word maps to a dense vector of `dims` components, whose
(floating-point) values are abstracted by the integer oracle `weights`;
looking up a word outside the vocabulary fails (a `KeyError`). -/
def word2vecWv (weights : String → Nat → Int) (dims : Nat)
    (sentences : List (List String)) (w : String) : Option (List Int) :=
  if w ∈ sentences.flatten then some ((List.range dims).map (weights w))
  else none

/-- The extraction loop of `generate_embeddings.py` lines 85-87:
`for node_id in graph.nodes(): embeddings[node_id] = model.wv[str(node_id)]`.
A failed lookup raises a `KeyError`, modelled as `Except.error`. -/
def extractEmbeddings (wv : String → Option (List Int)) :
    List String → Except String (List (String × List Int))
  | [] => .ok []
  | n :: rest =>
    match wv n with
    | none => .error ("KeyError: " ++ n)
    | some v =>
      match extractEmbeddings wv rest with
      | .error e => .error e
      | .ok t => .ok ((n, v) :: t)

/-- The observable outcome of one invocation of the script:
`ok table` is a successful run writing `table` (exit status 0);
`caught msg` is a failure caught by one of the three `try/except` blocks,
which prints the human-readable `msg` and calls `sys.exit(1)`;
`uncaught msg` is an exception escaping `main` (Python prints a raw
traceback and exits with status 1);
`usageError` is an argparse rejection (exit status 2). -/
inductive Outcome where
  | ok (table : List (String × List Int))
  | caught (msg : String)
  | uncaught (msg : String)
  | usageError
deriving DecidableEq

/-- The process exit status of each outcome. -/
def exitCode : Outcome → Nat
  | .ok _ => 0
  | .caught _ => 1
  | .uncaught _ => 1
  | .usageError => 2

/-- Whether the outcome prints a raw diagnostic traceback (only an
uncaught exception does; caught failures print a one-line message). -/
def printsTraceback : Outcome → Bool
  | .uncaught _ => true
  | _ => false

/-- The `main` function of `generate_embeddings.py` (lines 15-96) as a
function of its external interactions.  `input?`/`output?` are the values
of the required `--input`/`--output` arguments (argparse exits with status
2 when one is missing, modelled from the spec since argparse is library
code).  `readRes` is the result of `pd.read_csv` on the input path (an
exception for an unreadable file), `graphFault` an exception raised by
`StellarGraph(edges=edges)`, `walkRes` the result of
`BiasedRandomWalk.run` (the model `biasedRandomWalkRun` describes the
value a successful call returns), `trainFault` an exception raised inside
`Word2Vec(...)`, `weights` the trained model's internal vector values, and
`writeFault` an exception raised by `DataFrame.to_csv`.  The three stages
load / graph construction / walk generation sit inside `try/except` blocks
that print a stage-labelled message and exit with status 1; training,
extraction and writing are not guarded. -/
def runMain (input? output? : Option String) (dims : Nat)
    (readRes : Except String (List RawRow))
    (graphFault : Option String)
    (walkRes : Except String (List (List String)))
    (trainFault : Option String)
    (weights : String → Nat → Int)
    (writeFault : Option String) : Outcome :=
  if input?.isNone || output?.isNone then .usageError
  else
    match readRes with
    | .error e => .caught ("Error loading data: " ++ e)
    | .ok rows =>
      let edges := loadEdges rows
      match graphFault with
      | some e => .caught ("Error creating graph: " ++ e)
      | none =>
        let g := buildGraph edges
        match walkRes with
        | .error e => .caught ("Error generating walks: " ++ e)
        | .ok walks =>
          match trainFault with
          | some e => .uncaught e
          | none =>
            match extractEmbeddings (word2vecWv weights dims walks) g.nodes with
            | .error e => .uncaught e
            | .ok table =>
              match writeFault with
              | some e => .uncaught e
              | none => .ok table

/-! ### Lemmas about walks -/

theorem walkFrom_length_le (g : StellarGraphM) (choice : Nat → Nat) :
    ∀ (k : Nat) (cur : String), (walkFrom g choice cur k).length ≤ k := by
  intro k
  induction k with
  | zero => intro cur; simp [walkFrom]
  | succ k ih =>
    intro cur
    by_cases h : neighbors g cur = []
    · simp [walkFrom, h]
    · simp only [walkFrom, if_neg h, List.length_cons]
      exact Nat.succ_le_succ (ih _)

theorem walkFrom_short (g : StellarGraphM) (choice : Nat → Nat) :
    ∀ (k : Nat) (cur : String), (walkFrom g choice cur k).length < k →
      neighbors g ((walkFrom g choice cur k).getLastD cur) = [] := by
  intro k
  induction k with
  | zero => intro cur h; exact absurd h (Nat.not_lt_zero _)
  | succ k ih =>
    intro cur h
    by_cases hn : neighbors g cur = []
    · simp [walkFrom, hn]
    · simp only [walkFrom, if_neg hn, List.length_cons] at h ⊢
      rw [List.getLastD_cons]
      exact ih _ (Nat.lt_of_succ_lt_succ h)

theorem nodeWalk_length_le (g : StellarGraphM) (choice : Nat → Nat)
    (v : String) (length : Nat) (h : 1 ≤ length) :
    (nodeWalk g choice v length).length ≤ length := by
  simp only [nodeWalk, List.length_cons]
  have := walkFrom_length_le g choice (length - 1) v
  omega

theorem nodeWalk_short (g : StellarGraphM) (choice : Nat → Nat)
    (v : String) (length : Nat)
    (h : (nodeWalk g choice v length).length < length) :
    neighbors g ((nodeWalk g choice v length).getLastD "") = [] := by
  simp only [nodeWalk, List.length_cons] at h
  rw [nodeWalk, List.getLastD_cons]
  exact walkFrom_short g choice (length - 1) v (by omega)

/-! ### Lemmas about the extraction loop -/

theorem extractEmbeddings_map_fst (wv : String → Option (List Int)) :
    ∀ (nodes : List String) (table : List (String × List Int)),
      extractEmbeddings wv nodes = .ok table → table.map Prod.fst = nodes := by
  intro nodes
  induction nodes with
  | nil =>
    intro table h
    simp only [extractEmbeddings, Except.ok.injEq] at h
    simp [← h]
  | cons n rest ih =>
    intro table h
    simp only [extractEmbeddings] at h
    cases hw : wv n with
    | none => rw [hw] at h; exact absurd h (by simp)
    | some v =>
      rw [hw] at h
      cases hr : extractEmbeddings wv rest with
      | error e => rw [hr] at h; exact absurd h (by simp)
      | ok t =>
        rw [hr] at h
        simp only [Except.ok.injEq] at h
        rw [← h]
        simp [ih t hr]

theorem extractEmbeddings_lookup (wv : String → Option (List Int)) :
    ∀ (nodes : List String) (table : List (String × List Int)),
      extractEmbeddings wv nodes = .ok table →
        ∀ r ∈ table, wv r.1 = some r.2 := by
  intro nodes
  induction nodes with
  | nil =>
    intro table h r hr
    simp only [extractEmbeddings, Except.ok.injEq] at h
    rw [← h] at hr
    exact absurd hr (List.not_mem_nil r)
  | cons n rest ih =>
    intro table h r hr
    simp only [extractEmbeddings] at h
    cases hw : wv n with
    | none => rw [hw] at h; exact absurd h (by simp)
    | some v =>
      rw [hw] at h
      cases hrec : extractEmbeddings wv rest with
      | error e => rw [hrec] at h; exact absurd h (by simp)
      | ok t =>
        rw [hrec] at h
        simp only [Except.ok.injEq] at h
        rw [← h] at hr
        rcases List.mem_cons.mp hr with rfl | hr
        · exact hw
        · exact ih t hrec r hr

theorem extractEmbeddings_error_of_none (wv : String → Option (List Int)) :
    ∀ (nodes : List String) (n : String), n ∈ nodes → wv n = none →
      ∃ m, extractEmbeddings wv nodes = .error m := by
  intro nodes
  induction nodes with
  | nil => intro n h; exact absurd h (List.not_mem_nil n)
  | cons a rest ih =>
    intro n hmem hnone
    rcases List.mem_cons.mp hmem with rfl | hmem
    · exact ⟨"KeyError: " ++ n, by simp [extractEmbeddings, hnone]⟩
    · cases hw : wv a with
      | none => exact ⟨"KeyError: " ++ a, by simp [extractEmbeddings, hw]⟩
      | some v =>
        obtain ⟨m, hm⟩ := ih n hmem hnone
        exact ⟨m, by simp [extractEmbeddings, hw, hm]⟩

/-! ### Claims about the loader -/

/-- Claim C6: loader deduplication is idempotent — appending exact
duplicates of rows already present in the edge file does not change the
resulting edge count. -/
theorem claim6_dedup_idempotent (rows extra : List RawRow)
    (hsub : ∀ r ∈ extra, r ∈ rows) :
    (loadEdges (rows ++ extra)).length = (loadEdges rows).length := by
  unfold loadEdges
  rw [length_dropDuplicates, length_dropDuplicates, List.filterMap_append,
    List.toFinset_append]
  congr 1
  apply Finset.union_eq_left.mpr
  intro x hx
  rw [List.mem_toFinset, List.mem_filterMap] at hx ⊢
  obtain ⟨r, hr, hv⟩ := hx
  exact ⟨r, hsub r hr, hv⟩

/-- Claim C6 witness: duplicating the single row of a one-row file leaves
the loaded edge count unchanged. -/
theorem claim6_dedup_idempotent_witness :
    (loadEdges ([(some "A", some "B")] ++ [(some "A", some "B")])).length =
      (loadEdges [(some "A", some "B")]).length :=
  claim6_dedup_idempotent [(some "A", some "B")] [(some "A", some "B")]
    (by decide)

/-- Claim C7: after the loader completes, the edge collection has no
duplicate (source, target) pair, and every surviving edge comes from an
input row in which both identifiers were present (so no missing or null
identifier survives). -/
theorem claim7_loader_invariant (rows : List RawRow) :
    (loadEdges rows).Nodup ∧
      ∀ e ∈ loadEdges rows, (some e.1, some e.2) ∈ rows := by
  refine ⟨nodup_dropDuplicates _, fun e he => ?_⟩
  rw [loadEdges, mem_dropDuplicates, List.mem_filterMap] at he
  obtain ⟨r, hr, hv⟩ := he
  rw [← validRow_eq_some hv]
  exact hr

/-- Claim C7 witness: on a concrete one-row file, the loaded edge is a
fully-present row of the input. -/
theorem claim7_loader_invariant_witness :
    ("A", "B") ∈ loadEdges [(some "A", some "B")] ∧
      ((some "A" : Option String), (some "B" : Option String)) ∈
        ([(some "A", some "B")] : List RawRow) :=
  ⟨by decide,
    (claim7_loader_invariant [(some "A", some "B")]).2 ("A", "B") (by decide)⟩

/-- Claim C10: deduplication compares ordered pairs, so a file containing
both `A\tB` and `B\tA` (with distinct identifiers) keeps both rows, and
the reported edge count counts them as two distinct edges. -/
theorem claim10_ordered_pairs (rows : List RawRow) (a b : String)
    (hab : a ≠ b)
    (h1 : (some a, some b) ∈ rows) (h2 : (some b, some a) ∈ rows) :
    (a, b) ∈ loadEdges rows ∧ (b, a) ∈ loadEdges rows ∧
      2 ≤ (loadEdges rows).length := by
  have hm1 : (a, b) ∈ loadEdges rows := by
    rw [loadEdges, mem_dropDuplicates, List.mem_filterMap]
    exact ⟨(some a, some b), h1, rfl⟩
  have hm2 : (b, a) ∈ loadEdges rows := by
    rw [loadEdges, mem_dropDuplicates, List.mem_filterMap]
    exact ⟨(some b, some a), h2, rfl⟩
  refine ⟨hm1, hm2, ?_⟩
  have hne : (a, b) ≠ (b, a) := fun h => hab (congrArg Prod.fst h)
  have hsub : ({(a, b), (b, a)} : Finset (String × String)) ⊆
      (loadEdges rows).toFinset := by
    intro x hx
    rw [Finset.mem_insert, Finset.mem_singleton] at hx
    rw [List.mem_toFinset]
    rcases hx with rfl | rfl
    · exact hm1
    · exact hm2
  have hnd : (loadEdges rows).Nodup := nodup_dropDuplicates _
  have hcard := Finset.card_le_card hsub
  rw [Finset.card_pair hne, List.toFinset_card_of_nodup hnd] at hcard
  exact hcard

/-- Claim C10 witness: the concrete two-row file `A\tB`, `B\tA` loads to
two edges, both surviving. -/
theorem claim10_ordered_pairs_witness :
    ("A", "B") ∈ loadEdges [(some "A", some "B"), (some "B", some "A")] ∧
      ("B", "A") ∈ loadEdges [(some "A", some "B"), (some "B", some "A")] ∧
      2 ≤ (loadEdges [(some "A", some "B"), (some "B", some "A")]).length :=
  claim10_ordered_pairs [(some "A", some "B"), (some "B", some "A")] "A" "B"
    (by decide) (by decide) (by decide)

theorem length_flatMap_const {α β : Type} (n : Nat) :
    ∀ (l : List α) (f : α → List β), (∀ a ∈ l, (f a).length = n) →
      (l.flatMap f).length = n * l.length := by
  intro l
  induction l with
  | nil => intro f _; simp
  | cons a t ih =>
    intro f h
    rw [List.flatMap_cons, List.length_append, h a (List.mem_cons_self a t),
      ih f (fun x hx => h x (List.mem_cons_of_mem a hx)), List.length_cons]
    ring

theorem map_const_eq_replicate {α β : Type} (c : β) :
    ∀ l : List α, l.map (fun _ => c) = List.replicate l.length c := by
  intro l
  induction l with
  | nil => rfl
  | cons a t ih => simp [List.replicate_succ, ih]

/-! ### Claims about the walk sampler -/

/-- Claim C2: on a graph with `M` nodes, the walk sampler called with
`num_walks = N` and `walk_length = L` (both positive, as the sampler
requires) produces exactly `N * M` walks, and every walk has length at
most `L`, a walk being shorter than `L` only when it stopped at a node
with no neighbor to continue from. -/
theorem claim2_walk_counts (g : StellarGraphM)
    (oracle : String → Nat → Nat → Nat) (L N : Nat)
    (hL : 1 ≤ L) (hN : 1 ≤ N) :
    ∃ ws, biasedRandomWalkRun g oracle L N = .ok ws ∧
      ws.length = N * g.nodes.length ∧
      ∀ w ∈ ws, w.length ≤ L ∧
        (w.length < L → neighbors g (w.getLastD "") = []) := by
  refine ⟨g.nodes.flatMap (fun v =>
    (List.range N).map (fun i => nodeWalk g (oracle v i) v L)), ?_, ?_, ?_⟩
  · rw [biasedRandomWalkRun, if_neg (by omega), if_neg (by omega)]
  · exact length_flatMap_const N g.nodes _
      (fun v _ => by simp [List.length_map, List.length_range])
  · intro w hw
    rw [List.mem_flatMap] at hw
    obtain ⟨v, hv, hw⟩ := hw
    rw [List.mem_map] at hw
    obtain ⟨i, hi, rfl⟩ := hw
    exact ⟨nodeWalk_length_le g _ v L hL,
      fun hlt => nodeWalk_short g _ v L hlt⟩

/-- Claim C2 witness: with one walk of length 2 per node on the one-edge
graph, the sampler returns exactly `1 * 2` walks obeying the length
bound. -/
theorem claim2_walk_counts_witness :
    ∃ ws, biasedRandomWalkRun (buildGraph [("A", "B")]) (fun _ _ _ => 0)
        2 1 = .ok ws ∧
      ws.length = 1 * (buildGraph [("A", "B")]).nodes.length ∧
      ∀ w ∈ ws, w.length ≤ 2 ∧
        (w.length < 2 →
          neighbors (buildGraph [("A", "B")]) (w.getLastD "") = []) :=
  claim2_walk_counts (buildGraph [("A", "B")]) (fun _ _ _ => 0) 2 1
    (by decide) (by decide)

/-- Claim C8: with the bias parameters fixed at `p = 1` and `q = 1`, the
biased single-step transition distribution collapses to the uniform
distribution over the neighbors of the current node, for every previous
node (including the first step, which has none): no second-order bias
remains. -/
theorem claim8_unbiased_walk (g : StellarGraphM) (prev : Option String)
    (cur : String) :
    biasedProbs g 1 1 prev cur = uniformProbs g cur := by
  cases prev with
  | none => rfl
  | some pv =>
    have hfun : (fun nn => if nn = pv then 1 / (1 : ℚ)
        else if nn ∈ neighbors g pv then 1 else 1 / 1) =
        fun _ : String => (1 : ℚ) := funext fun nn => by simp
    simp only [biasedProbs, uniformProbs, hfun, map_const_eq_replicate,
      List.sum_replicate, nsmul_eq_mul, mul_one, List.map_replicate]

/-! ### Lemmas about the whole pipeline -/

theorem word2vecWv_length (wts : String → Nat → Int) (dims : Nat)
    (sentences : List (List String)) (w : String) (v : List Int)
    (h : word2vecWv wts dims sentences w = some v) : v.length = dims := by
  rw [word2vecWv] at h
  by_cases hm : w ∈ sentences.flatten
  · rw [if_pos hm] at h
    injection h with h
    rw [← h]
    simp
  · rw [if_neg hm] at h
    exact absurd h (by simp)

theorem runMain_ok_inv (input? output? : Option String) (dims : Nat)
    (readRes : Except String (List RawRow)) (graphFault : Option String)
    (walkRes : Except String (List (List String))) (trainFault : Option String)
    (weights : String → Nat → Int) (writeFault : Option String)
    (table : List (String × List Int))
    (h : runMain input? output? dims readRes graphFault walkRes trainFault
      weights writeFault = .ok table) :
    ∃ rows walks, readRes = .ok rows ∧ walkRes = .ok walks ∧
      extractEmbeddings (word2vecWv weights dims walks)
        (buildGraph (loadEdges rows)).nodes = .ok table := by
  cases input? with
  | none => simp [runMain] at h
  | some i =>
    cases output? with
    | none => simp [runMain] at h
    | some o =>
      cases readRes with
      | error e => simp [runMain] at h
      | ok rows =>
        cases graphFault with
        | some e => simp [runMain] at h
        | none =>
          cases walkRes with
          | error e => simp [runMain] at h
          | ok walks =>
            cases trainFault with
            | some e => simp [runMain] at h
            | none =>
              cases hex : extractEmbeddings (word2vecWv weights dims walks)
                  (buildGraph (loadEdges rows)).nodes with
              | error e => simp [runMain, hex] at h
              | ok t =>
                cases writeFault with
                | some e => simp [runMain, hex] at h
                | none =>
                  refine ⟨rows, walks, rfl, rfl, ?_⟩
                  simp only [runMain, hex] at h
                  injection h with h
                  rw [hex, h]

/-! ### Claims about the pipeline -/

/-- Claim C1: on every successful run, the set of `gene_id` row indices of
the output table is exactly the set of distinct identifiers appearing as
source or target in the deduplicated edge set: one row per graph node, no
extras, no omissions. -/
theorem claim1_output_gene_ids (input? output? : Option String) (dims : Nat)
    (rows : List RawRow) (graphFault : Option String)
    (walkRes : Except String (List (List String))) (trainFault : Option String)
    (weights : String → Nat → Int) (writeFault : Option String)
    (table : List (String × List Int))
    (h : runMain input? output? dims (.ok rows) graphFault walkRes trainFault
      weights writeFault = .ok table) :
    (table.map Prod.fst).Nodup ∧
      ∀ x, x ∈ table.map Prod.fst ↔ ∃ e ∈ loadEdges rows, x = e.1 ∨ x = e.2 := by
  obtain ⟨rows2, walks, hr, _, hex⟩ :=
    runMain_ok_inv input? output? dims (.ok rows) graphFault walkRes
      trainFault weights writeFault table h
  injection hr with hr
  subst hr
  have hfst := extractEmbeddings_map_fst _ _ _ hex
  rw [hfst]
  refine ⟨nodup_dropDuplicates _, fun x => ?_⟩
  show x ∈ dropDuplicates ((loadEdges rows).flatMap fun e => [e.1, e.2]) ↔ _
  rw [mem_dropDuplicates, List.mem_flatMap]
  constructor
  · rintro ⟨e, he, hx⟩
    rcases List.mem_cons.mp hx with rfl | hx
    · exact ⟨e, he, Or.inl rfl⟩
    · rcases List.mem_cons.mp hx with rfl | hx
      · exact ⟨e, he, Or.inr rfl⟩
      · exact absurd hx (List.not_mem_nil x)
  · rintro ⟨e, he, rfl | rfl⟩
    · exact ⟨e, he, by simp⟩
    · exact ⟨e, he, by simp⟩

/-- Claim C1 witness: a successful run on the one-edge file `A\tB`
produces a table whose `gene_id` set is exactly the identifiers of the
deduplicated edge set. -/
theorem claim1_output_gene_ids_witness :
    (([("A", [(0 : Int)]), ("B", [0])].map Prod.fst).Nodup ∧
      ∀ x, x ∈ [("A", [(0 : Int)]), ("B", [0])].map Prod.fst ↔
        ∃ e ∈ loadEdges [(some "A", some "B")], x = e.1 ∨ x = e.2) :=
  claim1_output_gene_ids (some "genes.tsv") (some "out.csv") 1
    [(some "A", some "B")] none (.ok [["A", "B"]]) none (fun _ _ => 0) none
    [("A", [0]), ("B", [0])] (by decide)

/-- Claim C3: every failure during loading, graph construction or walk
generation is caught: the run ends in a `caught` outcome carrying a
message prefixed with the failed stage (in particular a read failure on a
nonexistent input path yields the loading-stage message), the exit status
is 1 and no raw traceback is printed; a successful run exits with
status 0. -/
theorem claim3_caught_stage_failures :
    (∀ (i o : String) (dims : Nat) (e : String) graphFault walkRes trainFault
        weights writeFault,
      runMain (some i) (some o) dims (.error e) graphFault walkRes trainFault
        weights writeFault = .caught ("Error loading data: " ++ e)) ∧
    (∀ (i o : String) (dims : Nat) rows (e : String) walkRes trainFault
        weights writeFault,
      runMain (some i) (some o) dims (.ok rows) (some e) walkRes trainFault
        weights writeFault = .caught ("Error creating graph: " ++ e)) ∧
    (∀ (i o : String) (dims : Nat) rows (e : String) trainFault weights
        writeFault,
      runMain (some i) (some o) dims (.ok rows) none (.error e) trainFault
        weights writeFault = .caught ("Error generating walks: " ++ e)) ∧
    (∀ m, exitCode (.caught m) = 1 ∧ printsTraceback (.caught m) = false) ∧
    (∀ input? output? dims readRes graphFault walkRes trainFault weights
        writeFault table,
      runMain input? output? dims readRes graphFault walkRes trainFault
        weights writeFault = .ok table →
      exitCode (runMain input? output? dims readRes graphFault walkRes
        trainFault weights writeFault) = 0) := by
  refine ⟨?_, ?_, ?_, ?_, ?_⟩
  · intros; rfl
  · intros; rfl
  · intros; rfl
  · intro m; exact ⟨rfl, rfl⟩
  · intro input? output? dims readRes graphFault walkRes trainFault weights
      writeFault table h
    rw [h]
    rfl

/-- Claim C3 witness: a concrete read failure is caught with the
loading-stage message and exit status 1, and a concrete successful run
exits with status 0. -/
theorem claim3_caught_stage_failures_witness :
    runMain (some "genes.tsv") (some "out.csv") 128
        (.error "No such file or directory") none (.ok []) none
        (fun _ _ => 0) none =
      .caught ("Error loading data: " ++ "No such file or directory") ∧
    exitCode (.caught ("Error loading data: " ++ "No such file or directory"))
      = 1 ∧
    exitCode (runMain (some "genes.tsv") (some "out.csv") 1
      (.ok [(some "A", some "B")]) none (.ok [["A", "B"]]) none
      (fun _ _ => 0) none) = 0 :=
  ⟨claim3_caught_stage_failures.1 "genes.tsv" "out.csv" 128
      "No such file or directory" none (.ok []) none (fun _ _ => 0) none,
    (claim3_caught_stage_failures.2.2.2.1
      ("Error loading data: " ++ "No such file or directory")).1,
    claim3_caught_stage_failures.2.2.2.2 (some "genes.tsv") (some "out.csv") 1
      (.ok [(some "A", some "B")]) none (.ok [["A", "B"]]) none
      (fun _ _ => 0) none [("A", [0]), ("B", [0])] (by decide)⟩

/-- Claim C4: the training and writing stages have no caught-error path:
an exception raised inside `Word2Vec(...)`, a failed `model.wv` lookup for
a graph node never observed in training, or a write failure all end the
run in an `uncaught` outcome — a non-zero exit status with a raw
diagnostic trace, never the caught status-1 report. -/
theorem claim4_uncaught_train_write (dims : Nat) :
    (∀ (i o : String) rows walks (e : String) weights writeFault,
      runMain (some i) (some o) dims (.ok rows) none (.ok walks) (some e)
        weights writeFault = .uncaught e) ∧
    (∀ (i o : String) rows walks weights (e : String) table,
      extractEmbeddings (word2vecWv weights dims walks)
        (buildGraph (loadEdges rows)).nodes = .ok table →
      runMain (some i) (some o) dims (.ok rows) none (.ok walks) none
        weights (some e) = .uncaught e) ∧
    (∀ (i o : String) rows walks weights writeFault (n : String),
      n ∈ (buildGraph (loadEdges rows)).nodes →
      word2vecWv weights dims walks n = none →
      ∃ m, runMain (some i) (some o) dims (.ok rows) none (.ok walks) none
        weights writeFault = .uncaught m) ∧
    (∀ m, exitCode (.uncaught m) ≠ 0 ∧ printsTraceback (.uncaught m) = true) := by
  refine ⟨?_, ?_, ?_, ?_⟩
  · intros; rfl
  · intro i o rows walks weights e table hex
    simp [runMain, hex]
  · intro i o rows walks weights writeFault n hmem hnone
    obtain ⟨m, hm⟩ :=
      extractEmbeddings_error_of_none (word2vecWv weights dims walks)
        (buildGraph (loadEdges rows)).nodes n hmem hnone
    exact ⟨m, by simp [runMain, hm]⟩
  · intro m
    exact ⟨by simp [exitCode], rfl⟩

/-- Claim C4 witness: a concrete training exception and a concrete failed
vector lookup (node `A` of the graph, absent from an empty walk
collection) both end in the uncaught outcome. -/
theorem claim4_uncaught_train_write_witness :
    runMain (some "genes.tsv") (some "out.csv") 2 (.ok [(some "A", some "B")])
        none (.ok [["A", "B"]]) (some "training failed") (fun _ _ => 0) none =
      .uncaught "training failed" ∧
    (∃ m, runMain (some "genes.tsv") (some "out.csv") 2
        (.ok [(some "A", some "B")]) none (.ok []) none (fun _ _ => 0) none =
      .uncaught m) :=
  ⟨(claim4_uncaught_train_write 2).1 "genes.tsv" "out.csv"
      [(some "A", some "B")] [["A", "B"]] "training failed" (fun _ _ => 0)
      none,
    (claim4_uncaught_train_write 2).2.2.1 "genes.tsv" "out.csv"
      [(some "A", some "B")] [] (fun _ _ => 0) none "A" (by decide)
      (by decide)⟩

/-- Claim C5: on every successful run, every vector written to the output
table has exactly `dims` numeric components, `dims` being the value of the
`--dimensions` argument. -/
theorem claim5_vector_dimensions (input? output? : Option String)
    (dims : Nat) (readRes : Except String (List RawRow))
    (graphFault : Option String)
    (walkRes : Except String (List (List String))) (trainFault : Option String)
    (weights : String → Nat → Int) (writeFault : Option String)
    (table : List (String × List Int))
    (h : runMain input? output? dims readRes graphFault walkRes trainFault
      weights writeFault = .ok table) :
    ∀ r ∈ table, r.2.length = dims := by
  obtain ⟨rows, walks, _, _, hex⟩ :=
    runMain_ok_inv input? output? dims readRes graphFault walkRes trainFault
      weights writeFault table h
  intro r hr
  exact word2vecWv_length weights dims walks r.1 r.2
    (extractEmbeddings_lookup _ _ _ hex r hr)

/-- Claim C5 witness: in a successful run with `--dimensions 1`, the
vector written for gene `A` has exactly 1 component. -/
theorem claim5_vector_dimensions_witness :
    (("A", [(0 : Int)]) : String × List Int).2.length = 1 :=
  claim5_vector_dimensions (some "genes.tsv") (some "out.csv") 1
    (.ok [(some "A", some "B")]) none (.ok [["A", "B"]]) none (fun _ _ => 0)
    none [("A", [0]), ("B", [0])] (by decide) ("A", [0]) (by decide)

/-- Claim C9: invoking the program without the required `--input` or
`--output` argument makes the argument parser terminate the process with
exit status 2 — which is neither the success status 0 nor the
caught-failure status 1 — before any pipeline stage runs (the outcome is
the same whatever the stage oracles would have produced). -/
theorem claim9_missing_required_arg (input? output? : Option String)
    (h : input? = none ∨ output? = none) (dims : Nat)
    (readRes : Except String (List RawRow)) (graphFault : Option String)
    (walkRes : Except String (List (List String))) (trainFault : Option String)
    (weights : String → Nat → Int) (writeFault : Option String) :
    runMain input? output? dims readRes graphFault walkRes trainFault weights
        writeFault = .usageError ∧
      exitCode (runMain input? output? dims readRes graphFault walkRes
        trainFault weights writeFault) = 2 ∧
      (2 : Nat) ≠ 0 ∧ (2 : Nat) ≠ 1 := by
  have hcond : (input?.isNone || output?.isNone) = true := by
    rcases h with rfl | rfl <;> simp
  have h1 : runMain input? output? dims readRes graphFault walkRes trainFault
      weights writeFault = .usageError := by
    unfold runMain
    rw [if_pos hcond]
  exact ⟨h1, by rw [h1]; rfl, by decide, by decide⟩

/-- Claim C9 witness: omitting `--input` exits with status 2 whatever the
other interactions would have been. -/
theorem claim9_missing_required_arg_witness :
    runMain none (some "out.csv") 128 (.ok []) none (.ok []) none
        (fun _ _ => 0) none = .usageError ∧
      exitCode (runMain none (some "out.csv") 128 (.ok []) none (.ok []) none
        (fun _ _ => 0) none) = 2 ∧
      (2 : Nat) ≠ 0 ∧ (2 : Nat) ≠ 1 :=
  claim9_missing_required_arg none (some "out.csv") (Or.inl rfl) 128 (.ok [])
    none (.ok []) none (fun _ _ => 0) none

end Node2Vec
